import Mathlib

/-!
Verification development for the deep-research orchestrator of the
`intelexia.ai` repository (`src/app/api/deep-report/route.ts`, with the
identical JSON-repair helper also present in `src/app/api/report/route.ts`).

The TypeScript source is shallowly embedded as follows.

* `JSON.parse` is modelled by `jsonParse`, a recursive-descent parser for the
  JSON grammar over `List Char` (numbers keep their lexeme; raw control
  characters inside string literals are rejected, as `JSON.parse` rejects
  them; duplicate object keys keep the last binding, as in JavaScript).
  Parse-error message texts are abstracted; only success/failure and the
  parsed value are meaningful.
* The regex repairs of `retryJsonParse` (route.ts lines 24-50) are modelled
  replacement by replacement on `List Char`, following JavaScript's global
  regex replacement semantics (left-to-right, non-overlapping, scanning
  resumes after each match).
* Effectful operations of the orchestrator (the language model, the search
  engine, the content fetcher) are abstracted by environments of pure
  functions recording the outcome of each operation; `setTimeout` delays are
  not modelled (they do not affect values).
-/

namespace DeepReport

/-- The left curly brace character, written via its code point. -/
def lbrace : Char := Char.ofNat 123

/-- The right curly brace character, written via its code point. -/
def rbrace : Char := Char.ofNat 125

/-- Model of a parsed JSON value (result of `JSON.parse`). Numbers keep
their source lexeme, which is sufficient for every claim. -/
inductive JsonValue where
  | null
  | bool (b : Bool)
  | num (lexeme : String)
  | str (s : String)
  | arr (elems : List JsonValue)
  | obj (fields : List (String × JsonValue))

/-- Whitespace accepted between JSON tokens by `JSON.parse`. -/
def jsonWsChar (c : Char) : Bool :=
  c == ' ' || c == '\t' || c == '\n' || c == '\r'

/-- Skip JSON inter-token whitespace. -/
def skipWs : List Char → List Char
  | [] => []
  | c :: cs => if jsonWsChar c then skipWs cs else c :: cs

/-- `startsWithChars p l` holds when `p` is an initial segment of `l`. -/
def startsWithChars : List Char → List Char → Bool
  | [], _ => true
  | _ :: _, [] => false
  | p :: ps, c :: cs => p == c && startsWithChars ps cs

/-- Value of a hexadecimal digit, if any. -/
def hexDigitVal (c : Char) : Option Nat :=
  if c.isDigit then some (c.toNat - 48)
  else if 'a' ≤ c && c ≤ 'f' then some (c.toNat - 87)
  else if 'A' ≤ c && c ≤ 'F' then some (c.toNat - 55)
  else none

/-- The single-character JSON string escapes. -/
def simpleEscapeChar (e : Char) : Option Char :=
  if e == '"' then some '"'
  else if e == '\\' then some '\\'
  else if e == '/' then some '/'
  else if e == 'b' then some (Char.ofNat 8)
  else if e == 'f' then some (Char.ofNat 12)
  else if e == 'n' then some '\n'
  else if e == 'r' then some '\r'
  else if e == 't' then some '\t'
  else none

/-- Parse the body of a JSON string literal (the opening quote already
consumed), returning the decoded characters and the rest of the input.
Raw control characters (including raw newlines) are rejected, as in
`JSON.parse`. -/
def parseStringBody : List Char → Except String (List Char × List Char)
  | [] => .error "Unterminated string in JSON"
  | c :: cs =>
    if c == '"' then .ok ([], cs)
    else if c == '\\' then
      match cs with
      | [] => .error "Bad escaped character in JSON"
      | e :: cs2 =>
        match simpleEscapeChar e with
        | some d =>
          match parseStringBody cs2 with
          | .error msg => .error msg
          | .ok (body, rest) => .ok (d :: body, rest)
        | none =>
          if e == 'u' then
            match cs2 with
            | h1 :: h2 :: h3 :: h4 :: cs3 =>
              match hexDigitVal h1, hexDigitVal h2, hexDigitVal h3, hexDigitVal h4 with
              | some a, some b, some c2, some d2 =>
                match parseStringBody cs3 with
                | .error msg => .error msg
                | .ok (body, rest) =>
                  .ok (Char.ofNat (((a * 16 + b) * 16 + c2) * 16 + d2) :: body, rest)
              | _, _, _, _ => .error "Bad Unicode escape in JSON"
            | _ => .error "Bad Unicode escape in JSON"
          else .error "Bad escaped character in JSON"
    else if c.toNat < 32 then .error "Bad control character in JSON string literal"
    else
      match parseStringBody cs with
      | .error msg => .error msg
      | .ok (body, rest) => .ok (c :: body, rest)

/-- Longest digit prefix of a character list, and the remainder. -/
def spanDigits : List Char → List Char × List Char
  | [] => ([], [])
  | c :: cs =>
    if c.isDigit then
      let r := spanDigits cs
      (c :: r.1, r.2)
    else ([], c :: cs)

/-- Integer part of a JSON number (no leading zeros, as in `JSON.parse`). -/
def parseIntPart : List Char → Except String (List Char × List Char)
  | [] => .error "Unexpected end of JSON input"
  | c :: cs =>
    if c == '0' then
      match cs with
      | d :: _ =>
        if d.isDigit then .error "Unexpected number format in JSON" else .ok (['0'], cs)
      | [] => .ok (['0'], [])
    else if c.isDigit then
      let r := spanDigits cs
      .ok (c :: r.1, r.2)
    else .error "Unexpected token in JSON"

/-- Optional fractional part of a JSON number. -/
def parseFracPart : List Char → Except String (List Char × List Char)
  | '.' :: cs =>
    match spanDigits cs with
    | ([], _) => .error "Unexpected number format in JSON"
    | (ds, rest) => .ok ('.' :: ds, rest)
  | cs => .ok ([], cs)

/-- Optional exponent part of a JSON number. -/
def parseExpPart : List Char → Except String (List Char × List Char)
  | c :: cs =>
    if c == 'e' || c == 'E' then
      let signAndRest : List Char × List Char :=
        match cs with
        | d :: rest => if d == '+' || d == '-' then ([d], rest) else ([], cs)
        | [] => ([], [])
      match spanDigits signAndRest.2 with
      | ([], _) => .error "Unexpected number format in JSON"
      | (ds, rest) => .ok (c :: (signAndRest.1 ++ ds), rest)
    else .ok ([], c :: cs)
  | [] => .ok ([], [])

/-- A full JSON number lexeme. -/
def parseNumberLexeme (cs : List Char) : Except String (List Char × List Char) :=
  let negAndRest : List Char × List Char :=
    match cs with
    | c :: rest => if c == '-' then (['-'], rest) else ([], cs)
    | [] => ([], [])
  match parseIntPart negAndRest.2 with
  | .error e => .error e
  | .ok (ip, cs2) =>
    match parseFracPart cs2 with
    | .error e => .error e
    | .ok (fp, cs3) =>
      match parseExpPart cs3 with
      | .error e => .error e
      | .ok (ep, cs4) => .ok (negAndRest.1 ++ ip ++ fp ++ ep, cs4)

mutual

/-- Recursive-descent parser for one JSON value. `fuel` bounds the
recursion; `jsonParse` supplies enough fuel for any input it is applied
to in this development. -/
def parseValue : Nat → List Char → Except String (JsonValue × List Char)
  | 0, _ => .error "JSON nesting budget exceeded"
  | fuel + 1, cs =>
    match skipWs cs with
    | [] => .error "Unexpected end of JSON input"
    | c :: cs1 =>
      if c == '"' then
        match parseStringBody cs1 with
        | .error e => .error e
        | .ok (body, rest) => .ok (.str (String.mk body), rest)
      else if c == 't' then
        if startsWithChars ('r' :: 'u' :: 'e' :: []) cs1 then .ok (.bool true, cs1.drop 3)
        else .error "Unexpected token in JSON"
      else if c == 'f' then
        if startsWithChars ('a' :: 'l' :: 's' :: 'e' :: []) cs1 then .ok (.bool false, cs1.drop 4)
        else .error "Unexpected token in JSON"
      else if c == 'n' then
        if startsWithChars ('u' :: 'l' :: 'l' :: []) cs1 then .ok (.null, cs1.drop 3)
        else .error "Unexpected token in JSON"
      else if c == '[' then
        match skipWs cs1 with
        | ']' :: rest => .ok (.arr [], rest)
        | cs2 =>
          match parseItems fuel cs2 with
          | .error e => .error e
          | .ok (items, rest) => .ok (.arr items, rest)
      else if c == lbrace then
        match skipWs cs1 with
        | [] => .error "Unexpected end of JSON input"
        | d :: rest =>
          if d == rbrace then .ok (.obj [], rest)
          else
            match parseMembers fuel (d :: rest) with
            | .error e => .error e
            | .ok (fields, rest2) => .ok (.obj fields, rest2)
      else if c == '-' || c.isDigit then
        match parseNumberLexeme (c :: cs1) with
        | .error e => .error e
        | .ok (lex, rest) => .ok (.num (String.mk lex), rest)
      else .error "Unexpected token in JSON"

/-- Items of a non-empty JSON array (after the opening bracket). -/
def parseItems : Nat → List Char → Except String (List JsonValue × List Char)
  | 0, _ => .error "JSON nesting budget exceeded"
  | fuel + 1, cs =>
    match parseValue fuel cs with
    | .error e => .error e
    | .ok (v, rest) =>
      match skipWs rest with
      | ',' :: rest2 =>
        match parseItems fuel rest2 with
        | .error e => .error e
        | .ok (vs, rest3) => .ok (v :: vs, rest3)
      | ']' :: rest2 => .ok ([v], rest2)
      | _ => .error "Expected comma or closing bracket in JSON array"

/-- Members of a non-empty JSON object (after the opening brace). -/
def parseMembers : Nat → List Char → Except String (List (String × JsonValue) × List Char)
  | 0, _ => .error "JSON nesting budget exceeded"
  | fuel + 1, cs =>
    match skipWs cs with
    | [] => .error "Unexpected end of JSON input"
    | c :: cs1 =>
      if c == '"' then
        match parseStringBody cs1 with
        | .error e => .error e
        | .ok (key, rest) =>
          match skipWs rest with
          | ':' :: rest2 =>
            match parseValue fuel rest2 with
            | .error e => .error e
            | .ok (v, rest3) =>
              match skipWs rest3 with
              | [] => .error "Unexpected end of JSON input"
              | d :: rest4 =>
                if d == ',' then
                  match parseMembers fuel rest4 with
                  | .error e => .error e
                  | .ok (fields, rest5) => .ok ((String.mk key, v) :: fields, rest5)
                else if d == rbrace then .ok ([(String.mk key, v)], rest4)
                else .error "Expected comma or closing brace in JSON object"
          | _ => .error "Expected colon in JSON object"
      else .error "Expected string key in JSON object"

end

/-- Model of `JSON.parse`: parse one JSON value, then require only
whitespace to remain. -/
def jsonParse (s : String) : Except String JsonValue :=
  match parseValue (s.length + 8) s.toList with
  | .error e => .error e
  | .ok (v, rest) =>
    match skipWs rest with
    | [] => .ok v
    | _ => .error "Unexpected non-whitespace character after JSON data"

/-- JavaScript property access `v.key` on a parsed JSON value: only objects
have fields, and a duplicated key keeps its last binding. -/
def lookupLast : List (String × JsonValue) → String → Option JsonValue
  | [], _ => none
  | (k, v) :: rest, key =>
    match lookupLast rest key with
    | some w => some w
    | none => if k == key then some v else none

/-- Field access on a `JsonValue` (see `lookupLast`). -/
def getField (v : JsonValue) (key : String) : Option JsonValue :=
  match v with
  | .obj fields => lookupLast fields key
  | _ => none

/-!
## The JSON repair pipeline of `retryJsonParse`

Each regex replacement from route.ts lines 24-50 is modelled as a function on
`List Char`, in source order, following JavaScript global-replacement
semantics.
-/

/-- JavaScript regex whitespace `\s` (restricted to its ASCII members, the
only ones that occur in this development). -/
def jsWsChar (c : Char) : Bool :=
  c == ' ' || c == '\t' || c == '\n' || c == '\r' || c.toNat == 11 || c.toNat == 12

/-- Drop leading JavaScript whitespace. -/
def dropWhileWs (cs : List Char) : List Char := cs.dropWhile jsWsChar

/-- Drop trailing JavaScript whitespace. -/
def trimTrailingWs (cs : List Char) : List Char :=
  ((cs.reverse).dropWhile jsWsChar).reverse

/-- `endsWithChars suf l` holds when `suf` is a final segment of `l`. -/
def endsWithChars (suf l : List Char) : Bool :=
  startsWithChars suf.reverse l.reverse

/-- The characters allowed after a backslash by the negative lookahead in
`.replace(/\\(?!["\\\/bfnrt])/g, '\\\\')`. -/
def escAllowedChar (c : Char) : Bool :=
  c == '"' || c == '\\' || c == '/' || c == 'b' || c == 'f' || c == 'n' || c == 'r' || c == 't'

/-- `.replace(/\\(?!["\\\/bfnrt])/g, '\\\\')`: double every backslash that is
not followed by one of the allowed escape characters (a backslash at the end
of the input also matches the lookahead). -/
def fixBadBackslashes : List Char → List Char
  | [] => []
  | c :: cs =>
    if c == '\\' then
      match cs with
      | d :: _ =>
        if escAllowedChar d then c :: fixBadBackslashes cs
        else '\\' :: '\\' :: fixBadBackslashes cs
      | [] => ['\\', '\\']
    else c :: fixBadBackslashes cs

/-- Worker for `escapeUnescapedQuotes`; the first argument is the previous
character of the original input (the regex lookbehind examines the input,
not the output). -/
def escapeQuotesGo : Option Char → List Char → List Char
  | _, [] => []
  | prev, c :: cs =>
    if c == '"' && prev != some '\\' then '\\' :: '"' :: escapeQuotesGo (some c) cs
    else c :: escapeQuotesGo (some c) cs

/-- `.replace(/(?<!\\)"/g, '\\"')`: escape every double quote not preceded
by a backslash. -/
def escapeUnescapedQuotes (cs : List Char) : List Char := escapeQuotesGo none cs

/-- Worker for `collapseNewlines`; the flag records whether the previous
character belonged to a `[\n\r]+` run. -/
def collapseNewlinesGo : Bool → List Char → List Char
  | _, [] => []
  | inRun, c :: cs =>
    if c == '\n' || c == '\r' then
      if inRun then collapseNewlinesGo true cs
      else '\\' :: 'n' :: collapseNewlinesGo true cs
    else c :: collapseNewlinesGo false cs

/-- `.replace(/[\n\r]+/g, '\\n')`: replace each maximal newline run by the
two characters backslash-n. -/
def collapseNewlines (cs : List Char) : List Char := collapseNewlinesGo false cs

/-- `.replace(/\t/g, '\\t')`: replace each tab by backslash-t. -/
def replaceTabs : List Char → List Char
  | [] => []
  | c :: cs =>
    if c == '\t' then '\\' :: 't' :: replaceTabs cs
    else c :: replaceTabs cs

/-- `.replace(/^﻿/, '')`: strip a leading byte-order mark. -/
def stripBom : List Char → List Char
  | [] => []
  | c :: cs => if c.toNat == 65279 then cs else c :: cs

/-- `.replace(/[\u0000-\u001F]+/g, '')`: remove all control characters. -/
def removeControlChars (cs : List Char) : List Char :=
  cs.filter (fun c => !(c.toNat < 32))

/-- The literal pattern of `/```json\s*/`. -/
def fenceJsonChars : List Char := "```json".toList

/-- `.replace(/```json\s*/, '')` (non-global): remove the first occurrence
of a ```json fence together with the whitespace following it. -/
def removeFenceJson : List Char → List Char
  | [] => []
  | c :: cs =>
    if startsWithChars fenceJsonChars (c :: cs) then dropWhileWs (List.drop 7 (c :: cs))
    else c :: removeFenceJson cs

/-- The literal pattern of a closing code fence. -/
def backtick3 : List Char := "```".toList

/-- `.replace(/\s*```\s*$/, '')`: remove a trailing code fence and the
whitespace around it; the input is unchanged when no fence is followed only
by whitespace up to the end. -/
def removeTrailingFence (cs : List Char) : List Char :=
  let t := trimTrailingWs cs
  if endsWithChars backtick3 t then trimTrailingWs (t.take (t.length - 3)) else cs

/-- Worker for `removeTrailingCommas`; `some buf` records a pending comma
followed by the buffered whitespace run `buf` (in reverse). -/
def rtcGo : Option (List Char) → List Char → List Char
  | none, [] => []
  | some buf, [] => ',' :: buf.reverse
  | none, c :: cs =>
    if c == ',' then rtcGo (some []) cs else c :: rtcGo none cs
  | some buf, c :: cs =>
    if jsWsChar c then rtcGo (some (c :: buf)) cs
    else if c == ']' || c == rbrace then c :: rtcGo none cs
    else if c == ',' then (',' :: buf.reverse) ++ rtcGo (some []) cs
    else (',' :: buf.reverse) ++ (c :: rtcGo none cs)

/-- `.replace(/,\s*([\]}])/g, '$1')`: drop a comma (and the whitespace after
it) when it directly precedes a closing bracket or brace. -/
def removeTrailingCommas (cs : List Char) : List Char := rtcGo none cs

/-- JavaScript `String.prototype.trim`. -/
def trimChars (cs : List Char) : List Char := trimTrailingWs (dropWhileWs cs)

/-- JavaScript `String.prototype.trim` on `String`. -/
def jsTrim (s : String) : String := String.mk (trimChars s.toList)

/-- The final wrapping step of the repair: prepend an opening brace when the
text does not start with a brace or bracket, append a closing brace when it
does not end with one. -/
def ensureWrapped (cs : List Char) : List Char :=
  let withOpen :=
    match cs with
    | c :: _ => if c == '[' || c == lbrace then cs else lbrace :: cs
    | [] => [lbrace]
  match withOpen.getLast? with
  | some c => if c == ']' || c == rbrace then withOpen else withOpen ++ [rbrace]
  | none => withOpen ++ [rbrace]

/-- The whole cleaning pass of `retryJsonParse` (route.ts lines 24-50), with
the replacements applied in source order. -/
def cleanJson (s : String) : String :=
  let cs := s.toList
  let cs := fixBadBackslashes cs
  let cs := escapeUnescapedQuotes cs
  let cs := collapseNewlines cs
  let cs := replaceTabs cs
  let cs := stripBom cs
  let cs := removeControlChars cs
  let cs := removeFenceJson cs
  let cs := removeTrailingFence cs
  let cs := removeTrailingCommas cs
  let cs := trimChars cs
  let cs := ensureWrapped cs
  String.mk cs

/-- `const MAX_RETRIES = 2` (route.ts line 7). -/
def MAX_RETRIES : Nat := 2

/-- `retryJsonParse` (route.ts lines 9-60, identical in report/route.ts
lines 15-66): attempt a direct parse; on failure clean the text and retry,
up to `MAX_RETRIES` repair passes; afterwards fail with the final parse
error. The `setTimeout` delay between attempts is not modelled. -/
def retryJsonParse (jsonMatch : String) (retryCount : Nat) : Except String JsonValue :=
  match jsonParse jsonMatch with
  | .ok v => .ok v
  | .error parseError =>
    if retryCount < MAX_RETRIES then
      retryJsonParse (cleanJson jsonMatch) (retryCount + 1)
    else
      .error ("Failed to parse JSON after " ++ toString (MAX_RETRIES + 1) ++
        " attempts: " ++ parseError)
termination_by MAX_RETRIES + 1 - retryCount
decreasing_by omega

/-!
## Data model of the orchestrator (route.ts lines 266-345, 515-519)
-/

/-- `type SerpQuery` (route.ts lines 266-269). -/
structure SerpQuery where
  query : String
  researchGoal : String
deriving Repr, DecidableEq

/-- `interface DuckDuckResult` (route.ts lines 341-345). -/
structure DuckDuckResult where
  url : String
  title : String
  description : String
deriving Repr, DecidableEq

/-- One element of `SearchResponse.data` (route.ts lines 333-338): a fetched
page, `\x7burl, markdown\x7d`. -/
structure JinaPage where
  url : String
  markdown : String
deriving Repr, DecidableEq

/-- `type ProcessedResult` (route.ts lines 327-330). -/
structure ProcessedResult where
  learnings : List String
  followUpQuestions : List String
deriving Repr, DecidableEq

/-- `type ResearchResult` (route.ts lines 515-519). -/
structure ResearchResult where
  learnings : List String
  visitedUrls : List String
  errors : List String
deriving Repr, DecidableEq

/-- `msg.includes('rate limit')`: the retry wrappers classify an error as
retryable exactly when its message contains the substring "rate limit". -/
def hasSubstrChars (sub : List Char) : List Char → Bool
  | [] => sub.isEmpty
  | c :: cs => startsWithChars sub (c :: cs) || hasSubstrChars sub cs

/-- `error.message.includes('rate limit')` (route.ts lines 407 and 432). -/
def isRateLimitMsg (msg : String) : Bool :=
  hasSubstrChars "rate limit".toList msg.toList

/-!
## Search retry wrapper (route.ts lines 348-363 and 399-418)

The external world is abstracted by an environment indexed by the attempt
number (outcomes may change between attempts). Backoff delays are not
modelled; they do not affect values.
-/

/-- Outcome of one underlying `duck-duck-scrape` network call. -/
inductive SearchNetOutcome where
  | ok (results : List DuckDuckResult)
  | fail (msg : String)

/-- Environment of `safeDuckDuckSearch`: the per-key rate limiter's answer
and the network outcome for each attempt, plus `CONFIG.rateLimits.enabled`. -/
structure SearchEnv where
  rateLimitsEnabled : Bool
  perKeyAllowed : Nat → Bool
  net : Nat → SearchNetOutcome

/-- `safeDuckDuckSearch` (route.ts lines 348-363) for the given attempt
number: rate-limit check, then the (delayed) search call. -/
def safeDuckDuckSearch (env : SearchEnv) (attempt : Nat) :
    Except String (List DuckDuckResult) :=
  if env.rateLimitsEnabled && !(env.perKeyAllowed attempt) then
    .error "DuckDuckGo search rate limit exceeded"
  else
    match env.net attempt with
    | .ok rs => .ok rs
    | .fail msg => .error msg

/-- Retry loop of `executeDuckDuckSearchWithRetry` (route.ts lines 399-418),
instrumented with the number of attempts made so far (returned alongside the
result). `retries` mirrors the source's loop counter. -/
def searchRetryGo (env : SearchEnv) (retries attempts : Nat) :
    Except String (List DuckDuckResult) × Nat :=
  if retries < 3 then
    match safeDuckDuckSearch env attempts with
    | .ok rs => (.ok rs, attempts + 1)
    | .error msg =>
      if isRateLimitMsg msg then searchRetryGo env (retries + 1) (attempts + 1)
      else (.error msg, attempts + 1)
  else (.error "DuckDuckGo search failed after 3 retries", attempts)
termination_by 3 - retries
decreasing_by omega

/-- `executeDuckDuckSearchWithRetry` (route.ts lines 399-418): the result and
the number of attempts made. -/
def executeDuckDuckSearchWithRetry (env : SearchEnv) :
    Except String (List DuckDuckResult) × Nat :=
  searchRetryGo env 0 0

/-!
## Content-fetch retry wrapper and global counter (route.ts lines 365-396
and 421-444)

`totalJinaRequests` is module-level mutable state; it is threaded explicitly
as a `Nat`. The once-per-minute reset (line 367) and the pacing delays are
not modelled.
-/

/-- Outcome of one underlying Jina HTTP request. -/
inductive NetOutcome where
  | ok (body : String)
  | http429
  | fail (msg : String)

/-- Environment of `fetchJinaContent`: the configured global budget
`CONFIG.rateLimits.contentFetch`, the enable flag, and the per-key limiter
answer and network outcome for each attempt. -/
structure JinaEnv where
  contentFetchLimit : Nat
  rateLimitsEnabled : Bool
  perKeyAllowed : Nat → Bool
  net : Nat → NetOutcome

/-- `fetchJinaContent` (route.ts lines 370-396) at the given attempt number:
global-counter check (with increment), per-key rate limit, then the HTTP
request, mapping status 429 to the rate-limit error. Returns the result and
the updated `totalJinaRequests`. -/
def fetchJinaContent (env : JinaEnv) (attempt total : Nat) :
    Except String String × Nat :=
  if env.contentFetchLimit ≤ total then
    (.error "Global Jina rate limit exceeded", total)
  else
    let total := total + 1
    if env.rateLimitsEnabled && !(env.perKeyAllowed attempt) then
      (.error "Jina AI content fetch rate limit exceeded", total)
    else
      match env.net attempt with
      | .ok body => (.ok body, total)
      | .http429 => (.error "Jina AI content fetch rate limit exceeded", total)
      | .fail msg => (.error msg, total)

/-- Retry loop of `fetchJinaContentWithRetry` (route.ts lines 421-444),
instrumented with the number of `fetchJinaContent` attempts made. -/
def fetchRetryGo (env : JinaEnv) (retries total attempts : Nat) :
    Except String String × Nat × Nat :=
  if retries < 2 then
    match fetchJinaContent env attempts total with
    | (.ok body, total2) => (.ok body, total2, attempts + 1)
    | (.error msg, total2) =>
      if isRateLimitMsg msg then fetchRetryGo env (retries + 1) total2 (attempts + 1)
      else (.error msg, total2, attempts + 1)
  else (.error "Jina content fetch failed after 2 retries", total, attempts)
termination_by 2 - retries
decreasing_by omega

/-- `fetchJinaContentWithRetry` (route.ts lines 421-444): the result, the
updated global counter, and the number of attempts made. -/
def fetchJinaContentWithRetry (env : JinaEnv) (total : Nat) :
    Except String String × Nat × Nat :=
  fetchRetryGo env 0 total 0

/-!
## Query generator (route.ts lines 272-325)

The language-model call and the code-fence/bare-object regex extraction are
abstracted: `generateSerpQueries` is modelled from the extracted JSON text
onwards (the claims quantify over responses from which a queries array is
recoverable). The source casts `parsed.queries` without validating its
elements, so the model returns the raw `JsonValue` elements.
-/

/-- `generateSerpQueries` from the extracted JSON string on (route.ts lines
309-320): `JSON.parse`, require a `queries` array (a missing, falsy or
non-array `queries` throws), then `slice(0, numQueries)`. -/
def generateSerpQueries (jsonStr : String) (numQueries : Nat) :
    Except String (List JsonValue) :=
  match jsonParse jsonStr with
  | .error _ => .error "Failed to generate search queries"
  | .ok parsed =>
    match getField parsed "queries" with
    | some (.arr qs) => .ok (qs.take numQueries)
    | _ => .error "Failed to generate search queries"

/-- The `query` property of a raw queries-array element, when it is a
string. -/
def queryTextOf (v : JsonValue) : Option String :=
  match getField v "query" with
  | some (.str s) => some s
  | _ => none

/-!
## The recursive orchestrator `deepResearch` (route.ts lines 522-646)

Effect outcomes are abstracted per call site:
* `genQueries query learnings numQueries` is the outcome of
  `generateSerpQueries` (line 541);
* `search query` the outcome of `executeDuckDuckSearchWithRetry` (line 558);
* `fetch url` the outcome of `fetchJinaContentWithRetry` (line 571);
* `processSerp query data numFollowUpQuestions` the outcome of
  `processSerpResult` (line 587).

`deepResearch` is defined with explicit fuel: `none` means the fuel bound on
recursion depth was exceeded (the system-under-study has no such bound; the
claims show fuel `depth` always suffices). The result is paired with a trace
of every recursive-call edge (parent breadth/depth, child breadth/depth) —
instrumentation that records which recursive invocations were made.

`pLimit(1)` (lines 246, 551) serializes the branches, so the branch list is
processed in order. A rejection of the recursive `deepResearch` promise is
NOT caught by the branch's `try/catch` (line 602 returns the promise without
awaiting it inside the `try`), so such an error propagates out of the whole
call, as modelled in `processBranch`.
-/

/-- Environment of effect outcomes for `deepResearch`. -/
structure ResearchEnv where
  genQueries : String → List String → Nat → Except String (List SerpQuery)
  search : String → Except String (List DuckDuckResult)
  fetch : String → Except String String
  processSerp : String → List JinaPage → Nat → Except String ProcessedResult

/-- One recorded recursive-call edge. -/
structure RecEdge where
  parentBreadth : Nat
  parentDepth : Nat
  childBreadth : Nat
  childDepth : Nat
deriving Repr, DecidableEq

/-- The per-URL fetch of a branch (route.ts lines 563-580): take the first 5
search results, fetch each, drop the failures (`catch` returns `null`,
filtered out). -/
def branchPages (env : ResearchEnv) (rs : List DuckDuckResult) : List JinaPage :=
  (rs.take 5).filterMap (fun r =>
    match env.fetch r.url with
    | .ok md => some ⟨r.url, md⟩
    | .error _ => none)

/-- The synthesized next query of a recursing branch (route.ts lines
597-600), template whitespace included. -/
def mkNextQuery (sq : SerpQuery) (pr : ProcessedResult) : String :=
  jsTrim ("\n              Previous research goal: " ++ sq.researchGoal ++
    "\n              Follow-up research directions: " ++
    String.intercalate "\n" pr.followUpQuestions ++ "\n            ")

/-- The branch error message (route.ts line 617). -/
def errorMsgFor (sq : SerpQuery) (msg : String) : String :=
  "Failed to process query \"" ++ sq.query ++ "\": " ++ msg

/-- The fallible part of one branch up to and including `processSerpResult`
(route.ts lines 557-591): search, fetch/filter, summarize. On success it
yields the batch's `newUrls` and the processed result. -/
def branchTry (env : ResearchEnv) (breadth : Nat) (sq : SerpQuery) :
    Except String (List String × ProcessedResult) :=
  match env.search sq.query with
  | .error e => .error e
  | .ok searchResults =>
    let contents := branchPages env searchResults
    let newUrls := contents.map (fun p => p.url)
    let newBreadth := (breadth + 1) / 2
    match env.processSerp sq.query contents newBreadth with
    | .error e => .error e
    | .ok pr => .ok (newUrls, pr)

/-- One branch of `deepResearch` (route.ts lines 554-626), parametrized by
the recursive call `recur`. The `Option String` component is the error the
branch `catch` pushes into the level's `errors` accumulator (line 619), if
any; the `List RecEdge` component collects the recursion edges below this
branch. An error of the recursive call escapes the branch's `catch`. -/
def processBranch
    (recur : String → Nat → Nat → List String → List String →
      Option (Except String ResearchResult × List RecEdge))
    (env : ResearchEnv) (breadth depth : Nat) (learnings visitedUrls : List String)
    (sq : SerpQuery) :
    Option (Except String (Option String × ResearchResult × List RecEdge)) :=
  match branchTry env breadth sq with
  | .error e =>
    let errorMsg := errorMsgFor sq e
    some (.ok (some errorMsg, ⟨[], [], [errorMsg]⟩, []))
  | .ok (newUrls, pr) =>
    let newBreadth := (breadth + 1) / 2
    let newDepth := depth - 1
    let allLearnings := learnings ++ pr.learnings
    let allUrls := visitedUrls ++ newUrls
    if 0 < newDepth then
      match recur (mkNextQuery sq pr) newBreadth newDepth allLearnings allUrls with
      | none => none
      | some (.error e, _) => some (.error e)
      | some (.ok r, edges) =>
        some (.ok (none, r, ⟨breadth, depth, newBreadth, newDepth⟩ :: edges))
    else
      some (.ok (none, ⟨allLearnings, allUrls, []⟩, []))

/-- Join of the serialized branches (the `Promise.all` at route.ts line 553):
collect the pushed level errors, the branch results and the recursion edges
in branch order; a rejection aborts the whole call with that error. -/
def collectBranches :
    List (Option (Except String (Option String × ResearchResult × List RecEdge))) →
    Option (Except String (List String × List ResearchResult × List RecEdge))
  | [] => some (.ok ([], [], []))
  | none :: _ => none
  | some (.error e) :: _ => some (.error e)
  | some (.ok (oerr, r, edges)) :: rest =>
    match collectBranches rest with
    | none => none
    | some (.error e) => some (.error e)
    | some (.ok (errs, results, moreEdges)) =>
      some (.ok (
        (match oerr with
         | some m => m :: errs
         | none => errs),
        r :: results, edges ++ moreEdges))

/-- Worker for `jsSetDedup`: `seen` holds the values already emitted. -/
def jsSetDedupGo (seen : List String) : List String → List String
  | [] => []
  | x :: xs =>
    if x ∈ seen then jsSetDedupGo seen xs
    else x :: jsSetDedupGo (x :: seen) xs

/-- `[...new Set(xs)]` (route.ts lines 631-632): deduplicate keeping the
first occurrence of each value, in insertion order. -/
def jsSetDedup (l : List String) : List String := jsSetDedupGo [] l

/-- `deepResearch` (route.ts lines 522-646) with explicit fuel and the
recursion-edge trace. Control flow: generate SERP queries (a failure throws
`'Failed to generate initial search queries'`); run the branches in order;
deduplicate learnings and URLs across branch results; concatenate the
pushed level errors with the branch results' error lists. -/
def deepResearch (env : ResearchEnv) :
    Nat → String → Nat → Nat → List String → List String →
    Option (Except String ResearchResult × List RecEdge)
  | 0, _, _, _, _, _ => none
  | fuel + 1, query, breadth, depth, learnings, visitedUrls =>
    match env.genQueries query learnings breadth with
    | .error _ => some (.error "Failed to generate initial search queries", [])
    | .ok serpQueries =>
      match collectBranches (serpQueries.map
          (processBranch (deepResearch env fuel) env breadth depth learnings visitedUrls)) with
      | none => none
      | some (.error e) => some (.error e, [])
      | some (.ok (errs, results, edges)) =>
        let finalLearnings := jsSetDedup (results.flatMap (fun r => r.learnings))
        let finalUrls := jsSetDedup (results.flatMap (fun r => r.visitedUrls))
        let allErrors := errs ++ results.flatMap (fun r => r.errors)
        some (.ok ⟨finalLearnings, finalUrls, allErrors⟩, edges)

/-!
## The route handler `POST` (route.ts lines 649-748)
-/

/-- One entry of `webPages.value` in the route's response (route.ts lines
697-702): `Date.now()` is abstracted by the `now` parameter, and a missing
or empty learning at an index falls back to `'No learning available'`
(JavaScript `||`). -/
structure WebPage where
  id : String
  url : String
  name : String
  snippet : String
deriving Repr, DecidableEq

/-- Build `webPages.value` from visited URLs and learnings. -/
def mkWebPages (now : Nat) (visitedUrls learnings : List String) : List WebPage :=
  (visitedUrls.enum).map (fun p =>
    ⟨"deep-" ++ toString now ++ "-" ++ toString p.1, p.2, p.2,
      match learnings.get? p.1 with
      | some s => if s == "" then "No learning available" else s
      | none => "No learning available"⟩)

/-- The observable responses of the deep-search `POST` handler. -/
inductive PostResponse where
  | badRequest (msg : String)
  | tooManyRequests
  | success (webPages : List WebPage) (learnings : List String) (errors : List String)
  | serverError (msg : String)
deriving Repr, DecidableEq

/-- The deep-search `POST` handler (route.ts lines 649-748) after request
parsing: the empty query is falsy and yields 400; then the rate-limit gate;
then `deepResearch`. On resolution the handler always returns the success
response (line 715). In the `catch`, `learnings`/`visitedUrls` still hold
their initial empty values (they are assigned only after a successful
await, line 691, after which nothing throws), so the learnings-bearing
error response (lines 722-735) is unreachable and the handler returns the
500 failure. -/
def POSTdeep (env : ResearchEnv) (fuel : Nat) (rateLimitsEnabled rateLimitOk : Bool)
    (now : Nat) (query : String) (searchDepth searchBreadth : Nat) :
    Option PostResponse :=
  if query == "" then some (.badRequest "Query parameter is required")
  else if rateLimitsEnabled && !rateLimitOk then some .tooManyRequests
  else
    match deepResearch env fuel query searchBreadth searchDepth [] [] with
    | none => none
    | some (.ok r, _) =>
      some (.success (mkWebPages now r.visitedUrls r.learnings) r.learnings r.errors)
    | some (.error e, _) =>
      let errorLearnings : List String := []
      let errorUrls : List String := []
      if 0 < errorLearnings.length then
        some (.success (mkWebPages now errorUrls errorLearnings) errorLearnings [e])
      else some (.serverError "Failed to perform deep search")

/-!
## Concrete environments used by witnesses and counterexamples
-/

/-- A trivial environment: query generation yields no sub-queries. -/
def envTrivial : ResearchEnv :=
  ⟨fun _ _ _ => .ok [], fun _ => .ok [], fun _ => .ok "", fun _ _ _ => .ok ⟨[], []⟩⟩

/-- An environment in which the root generates three sub-queries and every
branch fails at summarization (`processSerpResult` throws). -/
def envAllFail : ResearchEnv :=
  ⟨fun _ _ _ => .ok [⟨"a", "ga"⟩, ⟨"b", "gb"⟩, ⟨"c", "gc"⟩],
   fun _ => .ok [],
   fun _ => .error "unused",
   fun _ _ _ => .error "Failed to process search results"⟩

/-!
## Properties of the `Set`-based deduplication
-/

theorem mem_jsSetDedupGo_not_seen {y : String} :
    ∀ (l seen : List String), y ∈ jsSetDedupGo seen l → y ∉ seen := by
  intro l
  induction l with
  | nil =>
    intro seen hy
    rw [jsSetDedupGo] at hy
    exact absurd hy (List.not_mem_nil y)
  | cons x xs ih =>
    intro seen hy
    rw [jsSetDedupGo] at hy
    by_cases hx : x ∈ seen
    · rw [if_pos hx] at hy
      exact ih seen hy
    · rw [if_neg hx] at hy
      rcases List.mem_cons.mp hy with h | h
      · exact h ▸ hx
      · intro hseen
        exact ih (x :: seen) h (List.mem_cons_of_mem x hseen)

theorem jsSetDedupGo_nodup : ∀ (l seen : List String), (jsSetDedupGo seen l).Nodup := by
  intro l
  induction l with
  | nil =>
    intro seen
    rw [jsSetDedupGo]
    exact List.nodup_nil
  | cons x xs ih =>
    intro seen
    rw [jsSetDedupGo]
    by_cases hx : x ∈ seen
    · rw [if_pos hx]
      exact ih seen
    · rw [if_neg hx]
      refine List.nodup_cons.mpr ⟨?_, ih (x :: seen)⟩
      intro hmem
      exact mem_jsSetDedupGo_not_seen xs (x :: seen) hmem (List.mem_cons_self x seen)

/-- `jsSetDedup` produces a list without duplicates. -/
theorem jsSetDedup_nodup (l : List String) : (jsSetDedup l).Nodup :=
  jsSetDedupGo_nodup l []

/-- C2: every `ResearchResult` that `deepResearch` resolves with has
duplicate-free `learnings` and `visitedUrls`: the aggregation step builds
both by JavaScript `Set` semantics, regardless of how many branches produced
the same learning or URL. -/
theorem deepResearch_result_nodup (env : ResearchEnv) (fuel : Nat) (query : String)
    (breadth depth : Nat) (learnings visitedUrls : List String)
    (r : ResearchResult) (edges : List RecEdge)
    (h : deepResearch env fuel query breadth depth learnings visitedUrls =
      some (.ok r, edges)) :
    r.learnings.Nodup ∧ r.visitedUrls.Nodup := by
  cases fuel with
  | zero => simp [deepResearch] at h
  | succ f =>
    rw [deepResearch] at h
    split at h
    · simp at h
    · split at h
      · simp at h
      · simp at h
      · rename_i errs results edges0 heq
        simp only [Option.some.injEq, Prod.mk.injEq, Except.ok.injEq] at h
        obtain ⟨hr, _⟩ := h
        subst hr
        exact ⟨jsSetDedup_nodup _, jsSetDedup_nodup _⟩

/-- C2 witness: a concrete resolved run with duplicate-free results. -/
theorem deepResearch_result_nodup_witness :
    deepResearch envTrivial 1 "q" 1 1 [] [] = some (.ok ⟨[], [], []⟩, []) ∧
    (⟨[], [], []⟩ : ResearchResult).learnings.Nodup ∧
    (⟨[], [], []⟩ : ResearchResult).visitedUrls.Nodup :=
  ⟨rfl, deepResearch_result_nodup envTrivial 1 "q" 1 1 [] [] ⟨[], [], []⟩ [] rfl⟩

/-!
## Levels on which every branch fails (claims C3 and C10)
-/

theorem processBranch_of_branchTry_error
    (recur : String → Nat → Nat → List String → List String →
      Option (Except String ResearchResult × List RecEdge))
    (env : ResearchEnv) (b d : Nat) (ls vs : List String) (sq : SerpQuery) (e : String)
    (h : branchTry env b sq = .error e) :
    processBranch recur env b d ls vs sq =
      some (.ok (some (errorMsgFor sq e), ⟨[], [], [errorMsgFor sq e]⟩, [])) := by
  unfold processBranch
  rw [h]

theorem collectBranches_all_fail
    (recur : String → Nat → Nat → List String → List String →
      Option (Except String ResearchResult × List RecEdge))
    (env : ResearchEnv) (b d : Nat) (ls vs : List String) (f : SerpQuery → String) :
    ∀ qs : List SerpQuery, (∀ sq ∈ qs, branchTry env b sq = .error (f sq)) →
      collectBranches (qs.map (processBranch recur env b d ls vs)) =
        some (.ok (qs.map (fun sq => errorMsgFor sq (f sq)),
          qs.map (fun sq => (⟨[], [], [errorMsgFor sq (f sq)]⟩ : ResearchResult)), [])) := by
  intro qs
  induction qs with
  | nil => intro _; rfl
  | cons sq rest ih =>
    intro h
    rw [List.map_cons,
      processBranch_of_branchTry_error recur env b d ls vs sq (f sq)
        (h sq (List.mem_cons_self sq rest))]
    rw [collectBranches, ih (fun q hq => h q (List.mem_cons_of_mem sq hq))]
    simp

theorem flatMap_failed_learnings (f : SerpQuery → String) :
    ∀ qs : List SerpQuery,
      ((qs.map fun sq => (⟨[], [], [errorMsgFor sq (f sq)]⟩ : ResearchResult)).flatMap
        fun r => r.learnings) = [] := by
  intro qs
  induction qs with
  | nil => rfl
  | cons sq rest ih => simp [ih]

theorem flatMap_failed_urls (f : SerpQuery → String) :
    ∀ qs : List SerpQuery,
      ((qs.map fun sq => (⟨[], [], [errorMsgFor sq (f sq)]⟩ : ResearchResult)).flatMap
        fun r => r.visitedUrls) = [] := by
  intro qs
  induction qs with
  | nil => rfl
  | cons sq rest ih => simp [ih]

theorem flatMap_failed_errors (f : SerpQuery → String) :
    ∀ qs : List SerpQuery,
      ((qs.map fun sq => (⟨[], [], [errorMsgFor sq (f sq)]⟩ : ResearchResult)).flatMap
        fun r => r.errors) = qs.map fun sq => errorMsgFor sq (f sq) := by
  intro qs
  induction qs with
  | nil => rfl
  | cons sq rest ih => simp [ih]

/-- When the level's query generation yields `qs` and every branch's
pipeline fails, the level resolves with empty learnings and URLs and the
doubled error list (each branch error is recorded both by the `catch`'s
`errors.push` and in the branch's returned result). -/
theorem deepResearch_all_fail_aux
    (env : ResearchEnv) (fuel : Nat) (query : String) (breadth depth : Nat)
    (ls vs : List String) (qs : List SerpQuery) (f : SerpQuery → String)
    (hgen : env.genQueries query ls breadth = .ok qs)
    (hfail : ∀ sq ∈ qs, branchTry env breadth sq = .error (f sq)) :
    deepResearch env (fuel + 1) query breadth depth ls vs =
      some (.ok ⟨[], [],
        (qs.map fun sq => errorMsgFor sq (f sq)) ++
          qs.map fun sq => errorMsgFor sq (f sq)⟩, []) := by
  rw [deepResearch]
  simp only [hgen]
  rw [collectBranches_all_fail (deepResearch env fuel) env breadth depth ls vs f qs hfail]
  dsimp only
  rw [flatMap_failed_learnings f qs, flatMap_failed_urls f qs, flatMap_failed_errors f qs]
  rfl

/-- C3 (amended): when all sub-query branches of a level fail (for example
all three root sub-queries fail summarization), the returned result has
empty `learnings` and `visitedUrls`, but the aggregated `errors` list holds
exactly TWO entries per failed branch (6 for 3 branches): the branch error
is pushed into the level accumulator and also returned in the branch's
result, and the aggregation concatenates both. -/
theorem deepResearch_all_branches_fail_double_errors
    (env : ResearchEnv) (fuel : Nat) (query : String) (breadth depth : Nat)
    (qs : List SerpQuery) (f : SerpQuery → String)
    (hgen : env.genQueries query [] breadth = .ok qs)
    (hfail : ∀ sq ∈ qs, branchTry env breadth sq = .error (f sq)) :
    deepResearch env (fuel + 1) query breadth depth [] [] =
      some (.ok ⟨[], [],
        (qs.map fun sq => errorMsgFor sq (f sq)) ++
          qs.map fun sq => errorMsgFor sq (f sq)⟩, []) ∧
    ((qs.map fun sq => errorMsgFor sq (f sq)) ++
      qs.map fun sq => errorMsgFor sq (f sq)).length = 2 * qs.length := by
  refine ⟨deepResearch_all_fail_aux env fuel query breadth depth [] [] qs f hgen hfail, ?_⟩
  simp [List.length_append, List.length_map]
  omega

/-- C3 witness: the three-failing-branches scenario, instantiated. -/
theorem deepResearch_all_branches_fail_double_errors_witness :
    deepResearch envAllFail 1 "root" 3 2 [] [] =
      some (.ok ⟨[], [],
        (([⟨"a", "ga"⟩, ⟨"b", "gb"⟩, ⟨"c", "gc"⟩] : List SerpQuery).map
          (fun sq => errorMsgFor sq "Failed to process search results")) ++
        ([⟨"a", "ga"⟩, ⟨"b", "gb"⟩, ⟨"c", "gc"⟩] : List SerpQuery).map
          (fun sq => errorMsgFor sq "Failed to process search results")⟩, []) ∧
    ((([⟨"a", "ga"⟩, ⟨"b", "gb"⟩, ⟨"c", "gc"⟩] : List SerpQuery).map
        (fun sq => errorMsgFor sq "Failed to process search results")) ++
      ([⟨"a", "ga"⟩, ⟨"b", "gb"⟩, ⟨"c", "gc"⟩] : List SerpQuery).map
        (fun sq => errorMsgFor sq "Failed to process search results")).length =
      2 * ([⟨"a", "ga"⟩, ⟨"b", "gb"⟩, ⟨"c", "gc"⟩] : List SerpQuery).length :=
  deepResearch_all_branches_fail_double_errors envAllFail 0 "root" 3 2
    [⟨"a", "ga"⟩, ⟨"b", "gb"⟩, ⟨"c", "gc"⟩]
    (fun _ => "Failed to process search results") rfl
    (by intro sq hsq; fin_cases hsq <;> rfl)

/-- C3 counterexample: three root branches fail, yet the aggregated error
list has 6 entries, not 3 (each failed branch contributes two). -/
theorem deepResearch_three_failures_counterexample :
    deepResearch envAllFail 2 "root" 3 2 [] [] =
      some (.ok ⟨[], [],
        ["Failed to process query \"a\": Failed to process search results",
         "Failed to process query \"b\": Failed to process search results",
         "Failed to process query \"c\": Failed to process search results",
         "Failed to process query \"a\": Failed to process search results",
         "Failed to process query \"b\": Failed to process search results",
         "Failed to process query \"c\": Failed to process search results"]⟩, []) ∧
    (["Failed to process query \"a\": Failed to process search results",
      "Failed to process query \"b\": Failed to process search results",
      "Failed to process query \"c\": Failed to process search results",
      "Failed to process query \"a\": Failed to process search results",
      "Failed to process query \"b\": Failed to process search results",
      "Failed to process query \"c\": Failed to process search results"] : List String).length
      = 6 ∧
    (6 : Nat) ≠ 3 :=
  ⟨rfl, rfl, by decide⟩

/-- C10: when `deepResearch` is invoked with non-empty seed learnings and
visited URLs and every branch generated at that level fails, the result has
empty `learnings` and `visitedUrls`: the seeds are threaded only through
succeeding branches, and failed branches return empty results, so the seeds
are discarded. -/
theorem deepResearch_seeds_discarded
    (env : ResearchEnv) (fuel : Nat) (query : String) (breadth depth : Nat)
    (ls vs : List String) (qs : List SerpQuery) (f : SerpQuery → String)
    (hls : ls ≠ []) (hvs : vs ≠ [])
    (hgen : env.genQueries query ls breadth = .ok qs)
    (hfail : ∀ sq ∈ qs, branchTry env breadth sq = .error (f sq)) :
    deepResearch env (fuel + 1) query breadth depth ls vs =
      some (.ok ⟨[], [],
        (qs.map fun sq => errorMsgFor sq (f sq)) ++
          qs.map fun sq => errorMsgFor sq (f sq)⟩, []) :=
  deepResearch_all_fail_aux env fuel query breadth depth ls vs qs f hgen hfail

/-- C10 witness: non-empty seeds are discarded when the three branches
fail. -/
theorem deepResearch_seeds_discarded_witness :
    deepResearch envAllFail 1 "root" 3 2 ["seed learning"] ["seed-url"] =
      some (.ok ⟨[], [],
        (([⟨"a", "ga"⟩, ⟨"b", "gb"⟩, ⟨"c", "gc"⟩] : List SerpQuery).map
          (fun sq => errorMsgFor sq "Failed to process search results")) ++
        ([⟨"a", "ga"⟩, ⟨"b", "gb"⟩, ⟨"c", "gc"⟩] : List SerpQuery).map
          (fun sq => errorMsgFor sq "Failed to process search results")⟩, []) :=
  deepResearch_seeds_discarded envAllFail 0 "root" 3 2 ["seed learning"] ["seed-url"]
    [⟨"a", "ga"⟩, ⟨"b", "gb"⟩, ⟨"c", "gc"⟩]
    (fun _ => "Failed to process search results") (by decide) (by decide) rfl
    (by intro sq hsq; fin_cases hsq <;> rfl)

/-!
## Recursion discipline of `deepResearch` (claim C1)
-/

theorem processBranch_congr
    (recur1 recur2 : String → Nat → Nat → List String → List String →
      Option (Except String ResearchResult × List RecEdge))
    (env : ResearchEnv) (b d : Nat) (ls vs : List String) (sq : SerpQuery)
    (hrec : 0 < d - 1 → ∀ q2 ls2 vs2,
      recur1 q2 ((b + 1) / 2) (d - 1) ls2 vs2 = recur2 q2 ((b + 1) / 2) (d - 1) ls2 vs2) :
    processBranch recur1 env b d ls vs sq = processBranch recur2 env b d ls vs sq := by
  unfold processBranch
  cases hb : branchTry env b sq with
  | error e => rfl
  | ok v =>
    obtain ⟨newUrls, pr⟩ := v
    dsimp only
    by_cases hd : 0 < d - 1
    · rw [if_pos hd, if_pos hd, hrec hd]
    · rw [if_neg hd, if_neg hd]

theorem deepResearch_fuel_congr (env : ResearchEnv) :
    ∀ d f1 f2, 1 ≤ d → d ≤ f1 → d ≤ f2 →
      ∀ q b ls vs, deepResearch env f1 q b d ls vs = deepResearch env f2 q b d ls vs := by
  intro d
  induction d using Nat.strong_induction_on with
  | _ d ih =>
    intro f1 f2 hd h1 h2 q b ls vs
    obtain ⟨a, rfl⟩ : ∃ a, f1 = a + 1 := ⟨f1 - 1, by omega⟩
    obtain ⟨c, rfl⟩ : ∃ c, f2 = c + 1 := ⟨f2 - 1, by omega⟩
    rw [deepResearch, deepResearch]
    cases hg : env.genQueries q ls b with
    | error e => rfl
    | ok qs =>
      have hmap : processBranch (deepResearch env a) env b d ls vs =
          processBranch (deepResearch env c) env b d ls vs := by
        funext sq
        apply processBranch_congr
        intro hd1 q2 ls2 vs2
        exact ih (d - 1) (by omega) a c (by omega) (by omega) (by omega) q2 ((b + 1) / 2) ls2 vs2
      rw [hmap]

theorem collectBranches_isSome
    (l : List (Option (Except String (Option String × ResearchResult × List RecEdge))))
    (h : ∀ x ∈ l, x.isSome) : (collectBranches l).isSome := by
  induction l with
  | nil => rw [collectBranches]; rfl
  | cons x rest ih =>
    have hx := h x (List.mem_cons_self x rest)
    have hrest := ih (fun y hy => h y (List.mem_cons_of_mem x hy))
    obtain ⟨v, rfl⟩ := Option.isSome_iff_exists.mp hx
    cases v with
    | error e => rw [collectBranches]; rfl
    | ok t =>
      obtain ⟨oerr, r, edges⟩ := t
      obtain ⟨w, hw⟩ := Option.isSome_iff_exists.mp hrest
      rw [collectBranches, hw]
      cases w with
      | error e => rfl
      | ok t2 => obtain ⟨e1, r1, e2⟩ := t2; rfl

theorem processBranch_isSome
    (recur : String → Nat → Nat → List String → List String →
      Option (Except String ResearchResult × List RecEdge))
    (env : ResearchEnv) (b d : Nat) (ls vs : List String) (sq : SerpQuery)
    (hrec : 0 < d - 1 → ∀ q2 ls2 vs2, (recur q2 ((b + 1) / 2) (d - 1) ls2 vs2).isSome) :
    (processBranch recur env b d ls vs sq).isSome := by
  unfold processBranch
  cases hb : branchTry env b sq with
  | error e => rfl
  | ok v =>
    obtain ⟨newUrls, pr⟩ := v
    dsimp only
    by_cases hd : 0 < d - 1
    · rw [if_pos hd]
      obtain ⟨w, hw⟩ := Option.isSome_iff_exists.mp
        (hrec hd (mkNextQuery sq pr) (ls ++ pr.learnings) (vs ++ newUrls))
      rw [hw]
      obtain ⟨res, edges⟩ := w
      cases res <;> rfl
    · rw [if_neg hd]
      rfl

theorem deepResearch_isSome (env : ResearchEnv) :
    ∀ d, 1 ≤ d → ∀ q b ls vs, (deepResearch env d q b d ls vs).isSome := by
  intro d
  induction d using Nat.strong_induction_on with
  | _ d ih =>
    intro hd q b ls vs
    obtain ⟨a, rfl⟩ : ∃ a, d = a + 1 := ⟨d - 1, by omega⟩
    rw [deepResearch]
    cases hg : env.genQueries q ls b with
    | error e => rfl
    | ok qs =>
      dsimp only
      have hall : ∀ x ∈ qs.map (processBranch (deepResearch env a) env b (a + 1) ls vs),
          x.isSome := by
        intro x hx
        obtain ⟨sq, _, rfl⟩ := List.mem_map.mp hx
        apply processBranch_isSome
        intro hd1 q2 ls2 vs2
        have ha : a + 1 - 1 = a := by omega
        rw [ha] at hd1 ⊢
        exact ih a (by omega) (by omega) q2 ((b + 1) / 2) ls2 vs2
      obtain ⟨w, hw⟩ := Option.isSome_iff_exists.mp (collectBranches_isSome _ hall)
      rw [hw]
      cases w with
      | error e => rfl
      | ok t => obtain ⟨errs, results, edges⟩ := t; rfl

theorem collectBranches_edges_mem
    (l : List (Option (Except String (Option String × ResearchResult × List RecEdge))))
    (errs : List String) (results : List ResearchResult) (edges : List RecEdge)
    (h : collectBranches l = some (.ok (errs, results, edges))) :
    ∀ e ∈ edges, ∃ x ∈ l, ∃ oerr r es, x = some (.ok (oerr, r, es)) ∧ e ∈ es := by
  induction l generalizing errs results edges with
  | nil =>
    rw [collectBranches] at h
    simp only [Option.some.injEq, Except.ok.injEq, Prod.mk.injEq] at h
    obtain ⟨_, _, h3⟩ := h
    subst h3
    intro e he
    exact absurd he (List.not_mem_nil e)
  | cons x rest ih =>
    cases x with
    | none => rw [collectBranches] at h; exact absurd h (by simp)
    | some v =>
      cases v with
      | error e0 => rw [collectBranches] at h; simp at h
      | ok t =>
        obtain ⟨oerr, r, es⟩ := t
        rw [collectBranches] at h
        cases hr : collectBranches rest with
        | none => rw [hr] at h; simp at h
        | some w =>
          cases w with
          | error e1 => rw [hr] at h; simp at h
          | ok t2 =>
            obtain ⟨errs2, results2, edges2⟩ := t2
            rw [hr] at h
            simp only [Option.some.injEq, Except.ok.injEq, Prod.mk.injEq] at h
            obtain ⟨_, _, h3⟩ := h
            subst h3
            intro e he
            rcases List.mem_append.mp he with hl | hl
            · exact ⟨some (.ok (oerr, r, es)), List.mem_cons_self _ _, oerr, r, es, rfl, hl⟩
            · obtain ⟨x, hx, oerr2, r2, es2, hxeq, hees⟩ := ih errs2 results2 edges2 hr e hl
              exact ⟨x, List.mem_cons_of_mem _ hx, oerr2, r2, es2, hxeq, hees⟩

theorem processBranch_edges
    (recur : String → Nat → Nat → List String → List String →
      Option (Except String ResearchResult × List RecEdge))
    (env : ResearchEnv) (b d : Nat) (ls vs : List String) (sq : SerpQuery)
    (oerr : Option String) (r : ResearchResult) (es : List RecEdge)
    (h : processBranch recur env b d ls vs sq = some (.ok (oerr, r, es))) :
    ∀ e ∈ es,
      (e = ⟨b, d, (b + 1) / 2, d - 1⟩ ∧ 0 < d - 1) ∨
      (∃ q2 ls2 vs2 res2 es2, recur q2 ((b + 1) / 2) (d - 1) ls2 vs2 = some (res2, es2) ∧
        e ∈ es2 ∧ 0 < d - 1) := by
  unfold processBranch at h
  cases hb : branchTry env b sq with
  | error e0 =>
    rw [hb] at h
    simp only [Option.some.injEq, Except.ok.injEq, Prod.mk.injEq] at h
    obtain ⟨_, _, h3⟩ := h
    subst h3
    intro e he
    exact absurd he (List.not_mem_nil e)
  | ok v =>
    obtain ⟨newUrls, pr⟩ := v
    rw [hb] at h
    dsimp only at h
    by_cases hd : 0 < d - 1
    · rw [if_pos hd] at h
      cases hrec : recur (mkNextQuery sq pr) ((b + 1) / 2) (d - 1)
          (ls ++ pr.learnings) (vs ++ newUrls) with
      | none => rw [hrec] at h; simp at h
      | some w =>
        obtain ⟨res, edges0⟩ := w
        rw [hrec] at h
        cases res with
        | error e0 => simp at h
        | ok rr =>
          simp only [Option.some.injEq, Except.ok.injEq, Prod.mk.injEq] at h
          obtain ⟨_, _, h3⟩ := h
          subst h3
          intro e he
          rcases List.mem_cons.mp he with hl | hl
          · exact Or.inl ⟨hl, hd⟩
          · exact Or.inr ⟨mkNextQuery sq pr, ls ++ pr.learnings, vs ++ newUrls, .ok rr, edges0,
              hrec, hl, hd⟩
    · rw [if_neg hd] at h
      simp only [Option.some.injEq, Except.ok.injEq, Prod.mk.injEq] at h
      obtain ⟨_, _, h3⟩ := h
      subst h3
      intro e he
      exact absurd he (List.not_mem_nil e)

theorem deepResearch_edges_wf (env : ResearchEnv) :
    ∀ fuel q b d ls vs res edges,
      deepResearch env fuel q b d ls vs = some (res, edges) →
      ∀ e ∈ edges, e.childBreadth = (e.parentBreadth + 1) / 2 ∧
        e.childDepth = e.parentDepth - 1 ∧ 0 < e.parentDepth - 1 := by
  intro fuel
  induction fuel with
  | zero =>
    intro q b d ls vs res edges h
    rw [deepResearch] at h
    exact absurd h (by simp)
  | succ f ih =>
    intro q b d ls vs res edges h e he
    rw [deepResearch] at h
    cases hg : env.genQueries q ls b with
    | error e0 =>
      rw [hg] at h
      simp only [Option.some.injEq, Prod.mk.injEq] at h
      obtain ⟨_, h2⟩ := h
      subst h2
      exact absurd he (List.not_mem_nil e)
    | ok qs =>
      rw [hg] at h
      dsimp only at h
      cases hc : collectBranches
          (qs.map (processBranch (deepResearch env f) env b d ls vs)) with
      | none => rw [hc] at h; simp at h
      | some w =>
        cases w with
        | error e0 =>
          rw [hc] at h
          simp only [Option.some.injEq, Prod.mk.injEq] at h
          obtain ⟨_, h2⟩ := h
          subst h2
          exact absurd he (List.not_mem_nil e)
        | ok t =>
          obtain ⟨errs, results, edges0⟩ := t
          rw [hc] at h
          simp only [Option.some.injEq, Prod.mk.injEq] at h
          obtain ⟨_, h2⟩ := h
          subst h2
          obtain ⟨x, hx, oerr, r, es, hxeq, hees⟩ :=
            collectBranches_edges_mem _ errs results edges0 hc e he
          obtain ⟨sq, _, rfl⟩ := List.mem_map.mp hx
          rcases processBranch_edges (deepResearch env f) env b d ls vs sq oerr r es
              hxeq e hees with hhead | hchild
          · obtain ⟨rfl, hd⟩ := hhead
            exact ⟨rfl, rfl, hd⟩
          · obtain ⟨q2, ls2, vs2, res2, es2, hrec, hmem, _⟩ := hchild
            exact ih q2 ((b + 1) / 2) (d - 1) ls2 vs2 res2 es2 hrec e hmem

/-- C1: for every invocation with depth `d ≥ 1` and breadth `b ≥ 1`:
fuel `d` suffices (the recursion terminates after at most `d` levels and
never needs more — any fuel `≥ d` computes the same result, and fuel `d`
never runs out), and every recursive-call edge anywhere in the tree uses
breadth `⌈b/2⌉` and depth `d − 1` of its parent and is taken only when the
decremented depth is strictly positive. -/
theorem deepResearch_recursion_discipline
    (env : ResearchEnv) (query : String) (breadth depth : Nat)
    (learnings visitedUrls : List String)
    (hd : 1 ≤ depth) (hb : 1 ≤ breadth) :
    (deepResearch env depth query breadth depth learnings visitedUrls).isSome ∧
    (∀ fuel, depth ≤ fuel →
      deepResearch env fuel query breadth depth learnings visitedUrls =
        deepResearch env depth query breadth depth learnings visitedUrls) ∧
    (∀ fuel res edges,
      deepResearch env fuel query breadth depth learnings visitedUrls =
        some (res, edges) →
      ∀ e ∈ edges, e.childBreadth = (e.parentBreadth + 1) / 2 ∧
        e.childDepth = e.parentDepth - 1 ∧ 0 < e.parentDepth - 1) := by
  refine ⟨deepResearch_isSome env depth hd query breadth learnings visitedUrls, ?_, ?_⟩
  · intro fuel hfuel
    exact deepResearch_fuel_congr env depth fuel depth hd hfuel le_rfl
      query breadth learnings visitedUrls
  · intro fuel res edges h
    exact deepResearch_edges_wf env fuel query breadth depth learnings visitedUrls
      res edges h

/-- C1 witness: concrete instances of the three conjuncts. -/
theorem deepResearch_recursion_discipline_witness :
    (1 : Nat) ≤ 1 ∧
    (deepResearch envTrivial 1 "q" 1 1 [] []).isSome ∧
    deepResearch envTrivial 5 "q" 1 1 [] [] = deepResearch envTrivial 1 "q" 1 1 [] [] :=
  have h := deepResearch_recursion_discipline envTrivial "q" 1 1 [] [] le_rfl le_rfl
  ⟨le_rfl, h.1, h.2.1 5 (by omega)⟩

/-!
## Behavior of the retry wrappers (claims C4 and C6)
-/

theorem searchRetryGo_step (env : SearchEnv) (retries attempts : Nat) (h : retries < 3) :
    searchRetryGo env retries attempts =
      (match safeDuckDuckSearch env attempts with
       | .ok rs => (.ok rs, attempts + 1)
       | .error msg =>
         if isRateLimitMsg msg then searchRetryGo env (retries + 1) (attempts + 1)
         else (.error msg, attempts + 1)) := by
  rw [searchRetryGo.eq_def, if_pos h]

theorem searchRetryGo_stop (env : SearchEnv) (retries attempts : Nat) (h : ¬ retries < 3) :
    searchRetryGo env retries attempts =
      (.error "DuckDuckGo search failed after 3 retries", attempts) := by
  rw [searchRetryGo.eq_def, if_neg h]

theorem searchRetry_exhausts (env : SearchEnv) (m : Nat → String)
    (h : ∀ i, i < 3 → safeDuckDuckSearch env i = .error (m i) ∧ isRateLimitMsg (m i) = true) :
    executeDuckDuckSearchWithRetry env =
      (.error "DuckDuckGo search failed after 3 retries", 3) := by
  have h0 := h 0 (by omega)
  have h1 := h 1 (by omega)
  have h2 := h 2 (by omega)
  simp only [executeDuckDuckSearchWithRetry,
    searchRetryGo_step env 0 0 (by omega), searchRetryGo_step env 1 1 (by omega),
    searchRetryGo_step env 2 2 (by omega), searchRetryGo_stop env 3 3 (by omega),
    h0.1, h0.2, h1.1, h1.2, h2.1, h2.2, if_true]

theorem searchRetry_fatal (env : SearchEnv) (m : String)
    (h : safeDuckDuckSearch env 0 = .error m) (hm : isRateLimitMsg m = false) :
    executeDuckDuckSearchWithRetry env = (.error m, 1) := by
  simp only [executeDuckDuckSearchWithRetry,
    searchRetryGo_step env 0 0 (by omega), h, hm, Bool.false_eq_true, if_false]

theorem fetchRetryGo_step (env : JinaEnv) (retries total attempts : Nat) (h : retries < 2) :
    fetchRetryGo env retries total attempts =
      (match fetchJinaContent env attempts total with
       | (.ok body, total2) => (.ok body, total2, attempts + 1)
       | (.error msg, total2) =>
         if isRateLimitMsg msg then fetchRetryGo env (retries + 1) total2 (attempts + 1)
         else (.error msg, total2, attempts + 1)) := by
  rw [fetchRetryGo.eq_def, if_pos h]

theorem fetchRetryGo_stop (env : JinaEnv) (retries total attempts : Nat) (h : ¬ retries < 2) :
    fetchRetryGo env retries total attempts =
      (.error "Jina content fetch failed after 2 retries", total, attempts) := by
  rw [fetchRetryGo.eq_def, if_neg h]

theorem fetchRetry_exhausts (env : JinaEnv) (total t0 t1 : Nat) (m0 m1 : String)
    (h0 : fetchJinaContent env 0 total = (.error m0, t0)) (h0r : isRateLimitMsg m0 = true)
    (h1 : fetchJinaContent env 1 t0 = (.error m1, t1)) (h1r : isRateLimitMsg m1 = true) :
    fetchJinaContentWithRetry env total =
      (.error "Jina content fetch failed after 2 retries", t1, 2) := by
  simp only [fetchJinaContentWithRetry,
    fetchRetryGo_step env 0 total 0 (by omega), fetchRetryGo_step env 1 t0 1 (by omega),
    fetchRetryGo_stop env 2 t1 2 (by omega), h0, h0r, h1, h1r, if_true]

theorem fetchRetry_fatal (env : JinaEnv) (total t0 : Nat) (m : String)
    (h : fetchJinaContent env 0 total = (.error m, t0)) (hm : isRateLimitMsg m = false) :
    fetchJinaContentWithRetry env total = (.error m, t0, 1) := by
  simp only [fetchJinaContentWithRetry,
    fetchRetryGo_step env 0 total 0 (by omega), h, hm, Bool.false_eq_true, if_false]

/-- C4 (amended): when the global content-fetch counter is already
exhausted, every underlying `fetchJinaContent` attempt fails with the
global-budget error without incrementing the counter — but that error's
message contains "rate limit", so the retry wrapper classifies it
RETRYABLE (exactly like per-key rate-limit failures): it makes its full
budget of 2 attempts and then fails with the wrapper's own
retries-exhausted error, not with the global-budget error. -/
theorem fetchJina_globalBudget_retried (env : JinaEnv) (total : Nat)
    (h : env.contentFetchLimit ≤ total) :
    fetchJinaContent env 0 total = (.error "Global Jina rate limit exceeded", total) ∧
    isRateLimitMsg "Global Jina rate limit exceeded" = true ∧
    fetchJinaContentWithRetry env total =
      (.error "Jina content fetch failed after 2 retries", total, 2) := by
  have hfc : ∀ a, fetchJinaContent env a total =
      (.error "Global Jina rate limit exceeded", total) := by
    intro a
    unfold fetchJinaContent
    rw [if_pos h]
  exact ⟨hfc 0, rfl,
    fetchRetry_exhausts env total total total _ _ (hfc 0) rfl (hfc 1) rfl⟩

/-- A Jina environment whose global budget is zero (already exhausted). -/
def envJinaExhausted : JinaEnv := ⟨0, false, fun _ => true, fun _ => .ok "page content"⟩

/-- C4 witness: the amended claim at the concrete exhausted environment. -/
theorem fetchJina_globalBudget_retried_witness :
    fetchJinaContent envJinaExhausted 0 0 =
      (.error "Global Jina rate limit exceeded", 0) ∧
    isRateLimitMsg "Global Jina rate limit exceeded" = true ∧
    fetchJinaContentWithRetry envJinaExhausted 0 =
      (.error "Jina content fetch failed after 2 retries", 0, 2) :=
  fetchJina_globalBudget_retried envJinaExhausted 0 (by decide)

/-- C4 counterexample: with the global counter exhausted, the wrapped fetch
does NOT fail immediately with the global-budget error: it retries (2
attempts) and surfaces the wrapper's retries-exhausted error instead, and
the global-budget error is classified retryable. -/
theorem fetchJina_globalBudget_counterexample :
    fetchJinaContentWithRetry envJinaExhausted 0 =
      (.error "Jina content fetch failed after 2 retries", 0, 2) ∧
    "Jina content fetch failed after 2 retries" ≠ "Global Jina rate limit exceeded" ∧
    isRateLimitMsg "Global Jina rate limit exceeded" = true := by
  refine ⟨?_, by decide, rfl⟩
  exact fetchRetry_exhausts envJinaExhausted 0 0 0 _ _ rfl rfl rfl rfl

/-- C6 (amended): when a wrapped operation fails with a rate-limit-classified
error on every attempt, the wrapper exhausts its attempt budget (search: 3
attempts; content fetch: 2 attempts) and then fails with the wrapper's OWN
fresh error message ("<operation> failed after N retries"), not with the
last error produced by the operation; an error that is not a rate-limit
signal is never retried and propagates immediately after one attempt. -/
theorem retryWrappers_budget_and_classification :
    (∀ (env : SearchEnv) (m : Nat → String),
      (∀ i, i < 3 → safeDuckDuckSearch env i = .error (m i) ∧ isRateLimitMsg (m i) = true) →
      executeDuckDuckSearchWithRetry env =
        (.error "DuckDuckGo search failed after 3 retries", 3)) ∧
    (∀ (env : SearchEnv) (m : String),
      safeDuckDuckSearch env 0 = .error m → isRateLimitMsg m = false →
      executeDuckDuckSearchWithRetry env = (.error m, 1)) ∧
    (∀ (env : JinaEnv) (total t0 t1 : Nat) (m0 m1 : String),
      fetchJinaContent env 0 total = (.error m0, t0) → isRateLimitMsg m0 = true →
      fetchJinaContent env 1 t0 = (.error m1, t1) → isRateLimitMsg m1 = true →
      fetchJinaContentWithRetry env total =
        (.error "Jina content fetch failed after 2 retries", t1, 2)) ∧
    (∀ (env : JinaEnv) (total t0 : Nat) (m : String),
      fetchJinaContent env 0 total = (.error m, t0) → isRateLimitMsg m = false →
      fetchJinaContentWithRetry env total = (.error m, t0, 1)) :=
  ⟨searchRetry_exhausts, searchRetry_fatal, fetchRetry_exhausts, fetchRetry_fatal⟩

/-- A search environment whose per-key limiter always denies (every attempt
fails with the retryable rate-limit error). -/
def envSearchRL : SearchEnv := ⟨true, fun _ => false, fun _ => .ok []⟩

/-- A search environment whose first attempt fails with a non-rate-limit
error. -/
def envSearchFatal : SearchEnv := ⟨false, fun _ => true, fun _ => .fail "DNS failure"⟩

/-- A Jina environment whose per-key limiter always denies. -/
def envJinaPerKeyRL : JinaEnv := ⟨10, true, fun _ => false, fun _ => .ok "content"⟩

/-- A Jina environment whose first attempt fails with a non-rate-limit
error. -/
def envJinaFatal : JinaEnv := ⟨10, false, fun _ => true, fun _ => .fail "DNS failure"⟩

/-- C6 witness: the four amended statements at concrete environments. -/
theorem retryWrappers_budget_and_classification_witness :
    executeDuckDuckSearchWithRetry envSearchRL =
      (.error "DuckDuckGo search failed after 3 retries", 3) ∧
    executeDuckDuckSearchWithRetry envSearchFatal = (.error "DNS failure", 1) ∧
    fetchJinaContentWithRetry envJinaPerKeyRL 0 =
      (.error "Jina content fetch failed after 2 retries", 2, 2) ∧
    fetchJinaContentWithRetry envJinaFatal 0 = (.error "DNS failure", 1, 1) :=
  have h := retryWrappers_budget_and_classification
  ⟨h.1 envSearchRL (fun _ => "DuckDuckGo search rate limit exceeded")
      (fun _ _ => ⟨rfl, rfl⟩),
   h.2.1 envSearchFatal "DNS failure" rfl rfl,
   h.2.2.1 envJinaPerKeyRL 0 1 2 "Jina AI content fetch rate limit exceeded"
      "Jina AI content fetch rate limit exceeded" rfl rfl rfl rfl,
   h.2.2.2 envJinaFatal 0 1 "DNS failure" rfl rfl⟩

/-- C6 counterexample: after exhausting the budget on retryable failures,
the wrapper fails with its own fresh message, which differs from the last
error the operation produced. -/
theorem retryWrapper_last_error_counterexample :
    safeDuckDuckSearch envSearchRL 2 = .error "DuckDuckGo search rate limit exceeded" ∧
    isRateLimitMsg "DuckDuckGo search rate limit exceeded" = true ∧
    executeDuckDuckSearchWithRetry envSearchRL =
      (.error "DuckDuckGo search failed after 3 retries", 3) ∧
    "DuckDuckGo search failed after 3 retries" ≠ "DuckDuckGo search rate limit exceeded" := by
  refine ⟨rfl, rfl, ?_, by decide⟩
  exact searchRetry_exhausts envSearchRL (fun _ => "DuckDuckGo search rate limit exceeded")
    (fun _ _ => ⟨rfl, rfl⟩)

/-!
## Success semantics of the route handler (claim C5)
-/

/-- C5 (amended): the handler returns HTTP-success semantics exactly when
`deepResearch` RESOLVES — even with zero learnings anywhere in the tree
(a resolved empty result still yields the success response, with its error
list attached); the 500 operation failure is returned exactly when
`deepResearch` throws (root query generation failed or a nested rejection
propagated), in which case no learnings have been assigned. -/
theorem POSTdeep_success_iff_resolves
    (env : ResearchEnv) (fuel : Nat) (rlE rlOk : Bool) (now : Nat)
    (query : String) (d b : Nat)
    (hq : query ≠ "") (hrl : rlE = false ∨ rlOk = true) :
    ((∃ w l e, POSTdeep env fuel rlE rlOk now query d b = some (.success w l e)) ↔
      (∃ r tr, deepResearch env fuel query b d [] [] = some (.ok r, tr))) ∧
    ((POSTdeep env fuel rlE rlOk now query d b =
        some (.serverError "Failed to perform deep search")) ↔
      (∃ msg tr, deepResearch env fuel query b d [] [] = some (.error msg, tr))) := by
  have hq2 : (query == "") = false := by
    simp only [beq_eq_false_iff_ne, ne_eq]
    exact hq
  have hrl2 : (rlE && !rlOk) = false := by
    rcases hrl with h | h <;> simp [h]
  simp only [POSTdeep, hq2, hrl2, Bool.false_eq_true, if_false]
  cases hdr : deepResearch env fuel query b d [] [] with
  | none => simp
  | some w =>
    obtain ⟨res, tr⟩ := w
    cases res with
    | ok r => simp
    | error msg =>
      simp only [List.length_nil, Nat.lt_irrefl, if_false]
      constructor
      · simp
      · constructor
        · intro _
          exact ⟨msg, tr, rfl⟩
        · intro _
          trivial

/-- C5 witness: the success-iff-resolves equivalence at a concrete input. -/
theorem POSTdeep_success_iff_resolves_witness :
    ("root" : String) ≠ "" ∧
    ((∃ w l e, POSTdeep envAllFail 2 false true 0 "root" 2 3 = some (.success w l e)) ↔
      (∃ r tr, deepResearch envAllFail 2 "root" 3 2 [] [] = some (.ok r, tr))) :=
  ⟨by decide,
    (POSTdeep_success_iff_resolves envAllFail 2 false true 0 "root" 2 3
      (by decide) (Or.inl rfl)).1⟩

/-- C5 counterexample: all three root branches fail, `deepResearch`
resolves with ZERO learnings, and the handler still returns the success
response (empty learnings, errors attached) rather than reporting an
operation failure. -/
theorem POSTdeep_empty_success_counterexample :
    POSTdeep envAllFail 2 false true 0 "root" 2 3 =
      some (.success [] []
        ["Failed to process query \"a\": Failed to process search results",
         "Failed to process query \"b\": Failed to process search results",
         "Failed to process query \"c\": Failed to process search results",
         "Failed to process query \"a\": Failed to process search results",
         "Failed to process query \"b\": Failed to process search results",
         "Failed to process query \"c\": Failed to process search results"]) := rfl

/-!
## The JSON repair parser (claim C7)
-/

theorem retryJsonParse_step (jm : String) (rc : Nat) (m : String)
    (hparse : jsonParse jm = .error m) (h : rc < MAX_RETRIES) :
    retryJsonParse jm rc = retryJsonParse (cleanJson jm) (rc + 1) := by
  rw [retryJsonParse.eq_def, hparse]
  dsimp only
  rw [if_pos h]

theorem retryJsonParse_last (jm : String) (rc : Nat) (m : String)
    (hparse : jsonParse jm = .error m) (h : ¬ rc < MAX_RETRIES) :
    retryJsonParse jm rc =
      .error ("Failed to parse JSON after " ++ toString (MAX_RETRIES + 1) ++
        " attempts: " ++ m) := by
  rw [retryJsonParse.eq_def, hparse]
  dsimp only
  rw [if_neg h]

theorem retryJsonParse_three_failures (s m0 m1 m2 : String)
    (h0 : jsonParse s = .error m0)
    (h1 : jsonParse (cleanJson s) = .error m1)
    (h2 : jsonParse (cleanJson (cleanJson s)) = .error m2) :
    retryJsonParse s 0 =
      .error ("Failed to parse JSON after " ++ toString (MAX_RETRIES + 1) ++
        " attempts: " ++ m2) := by
  rw [retryJsonParse_step s 0 m0 h0 (by decide),
    retryJsonParse_step (cleanJson s) 1 m1 h1 (by decide),
    retryJsonParse_last (cleanJson (cleanJson s)) 2 m2 h2 (by decide)]

/-- C7 (amended): on a text whose direct parse and both repaired forms all
fail to parse, `retryJsonParse` terminates within its budget of two repair
passes and fails, surfacing the final parse error — it does NOT recover the
manually corrected object. In particular this happens on the scenario text
with one stray unescaped quote, raw newlines and a trailing comma: the
quote-escaping repair escapes the JSON's own structural quotes, so every
repaired form is unparseable. -/
theorem retryJsonParse_budget_exhausted (s m0 m1 m2 : String)
    (h0 : jsonParse s = .error m0)
    (h1 : jsonParse (cleanJson s) = .error m1)
    (h2 : jsonParse (cleanJson (cleanJson s)) = .error m2) :
    retryJsonParse s 0 =
      .error ("Failed to parse JSON after " ++ toString (MAX_RETRIES + 1) ++
        " attempts: " ++ m2) :=
  retryJsonParse_three_failures s m0 m1 m2 h0 h1 h2

/-- The scenario text of the claim: one stray unescaped quote (after `x`),
an embedded raw newline (inside the string value), and a trailing comma
before a closing bracket. -/
def scenarioJson : String := "\x7b\"a\": \"x\"y\nz\", \"b\": [1, 2,]\x7d"

/-- The manually corrected form of `scenarioJson`: the stray quote and the
newline escaped, the trailing comma removed. -/
def scenarioCorrected : String := "\x7b\"a\": \"x\\\"y\\nz\", \"b\": [1, 2]\x7d"

/-- C7 witness: the amended claim at the scenario text. -/
theorem retryJsonParse_budget_exhausted_witness :
    retryJsonParse scenarioJson 0 =
      .error ("Failed to parse JSON after " ++ toString (MAX_RETRIES + 1) ++
        " attempts: " ++ "Expected string key in JSON object") :=
  retryJsonParse_budget_exhausted scenarioJson
    "Expected comma or closing brace in JSON object"
    "Expected string key in JSON object"
    "Expected string key in JSON object" rfl rfl rfl

/-- C7 counterexample: on the scenario text, `retryJsonParse` does not
return the object of the manually corrected form — it fails after its
repair budget, while the corrected form parses directly. -/
theorem retryJsonParse_scenario_counterexample :
    retryJsonParse scenarioJson 0 =
      .error "Failed to parse JSON after 3 attempts: Expected string key in JSON object" ∧
    jsonParse scenarioCorrected =
      .ok (.obj [("a", .str "x\"y\nz"), ("b", .arr [.num "1", .num "2"])]) := by
  constructor
  · exact retryJsonParse_three_failures scenarioJson
      "Expected comma or closing brace in JSON object"
      "Expected string key in JSON object"
      "Expected string key in JSON object" rfl rfl rfl
  · rfl

/-!
## The query generator (claim C8)
-/

/-- C8 (amended): whenever a queries array is recoverable from the response,
`generateSerpQueries` returns at most `numQueries` items (`slice(0, n)`);
but uniqueness of the query texts is NOT enforced by the code — it is only
requested in the prompt — so the returned queries may repeat. -/
theorem generateSerpQueries_le (jsonStr : String) (numQueries : Nat)
    (qs : List JsonValue) (h : generateSerpQueries jsonStr numQueries = .ok qs) :
    qs.length ≤ numQueries := by
  unfold generateSerpQueries at h
  cases hp : jsonParse jsonStr with
  | error e => rw [hp] at h; exact absurd h (by simp)
  | ok v =>
    rw [hp] at h
    dsimp only at h
    cases hf : getField v "queries" with
    | none => rw [hf] at h; exact absurd h (by simp)
    | some w =>
      rw [hf] at h
      cases w with
      | arr l =>
        simp only [Except.ok.injEq] at h
        subst h
        exact List.length_take_le numQueries l
      | null => simp at h
      | bool b => simp at h
      | num s => simp at h
      | str s => simp at h
      | obj fs => simp at h

/-- A model response whose queries array holds two queries with the SAME
query text. -/
def dupQueriesJson : String :=
  "\x7b\"queries\": [\x7b\"query\": \"a\", \"researchGoal\": \"g1\"\x7d, \x7b\"query\": \"a\", \"researchGoal\": \"g2\"\x7d]\x7d"

/-- C8 witness: the length bound at the concrete response. -/
theorem generateSerpQueries_le_witness :
    ([.obj [("query", .str "a"), ("researchGoal", .str "g1")],
      .obj [("query", .str "a"), ("researchGoal", .str "g2")]] : List JsonValue).length ≤ 3 :=
  generateSerpQueries_le dupQueriesJson 3 _ rfl

/-- C8 counterexample: a recoverable queries array containing two queries
with identical query text passes through unchanged — the returned queries
are not pairwise distinct by text. -/
theorem generateSerpQueries_duplicates_counterexample :
    generateSerpQueries dupQueriesJson 3 =
      .ok [.obj [("query", .str "a"), ("researchGoal", .str "g1")],
           .obj [("query", .str "a"), ("researchGoal", .str "g2")]] ∧
    queryTextOf (.obj [("query", .str "a"), ("researchGoal", .str "g1")]) = some "a" ∧
    queryTextOf (.obj [("query", .str "a"), ("researchGoal", .str "g2")]) = some "a" :=
  ⟨rfl, rfl, rfl⟩

/-!
## Per-URL fetch failures within a branch (claim C9)
-/

theorem branchPages_fetch_ok (env : ResearchEnv) (rs : List DuckDuckResult) :
    ∀ p ∈ branchPages env rs, env.fetch p.url = .ok p.markdown := by
  intro p hp
  obtain ⟨r, _, hfr⟩ := List.mem_filterMap.mp hp
  cases hfetch : env.fetch r.url with
  | ok md =>
    rw [hfetch] at hfr
    simp only [Option.some.injEq] at hfr
    subst hfr
    exact hfetch
  | error e => rw [hfetch] at hfr; exact absurd hfr (by simp)

/-- C9: inside one branch's batch (the first 5 search results), a fetch
failure for one URL does not abort the batch: every page in the batch comes
from a successful fetch (no placeholder is substituted), a URL whose fetch
failed is absent from the batch (hence from `newUrls`/`visitedUrls` and
from the contents handed to the summarizer), every successfully fetched URL
of the batch is still processed, and the branch proceeds to summarization
over exactly the successful pages. -/
theorem branch_fetch_failure_isolated
    (env : ResearchEnv) (breadth : Nat) (sq : SerpQuery)
    (rs : List DuckDuckResult) (u : DuckDuckResult) (emsg : String)
    (hsearch : env.search sq.query = .ok rs)
    (_hu : u ∈ rs.take 5)
    (hfail : env.fetch u.url = .error emsg) :
    (∀ p ∈ branchPages env rs, env.fetch p.url = .ok p.markdown) ∧
    (∀ p ∈ branchPages env rs, p.url ≠ u.url) ∧
    (∀ r ∈ rs.take 5, ∀ md, env.fetch r.url = .ok md →
      (⟨r.url, md⟩ : JinaPage) ∈ branchPages env rs) ∧
    (∀ pr, env.processSerp sq.query (branchPages env rs) ((breadth + 1) / 2) = .ok pr →
      branchTry env breadth sq = .ok ((branchPages env rs).map (fun p => p.url), pr)) := by
  refine ⟨branchPages_fetch_ok env rs, ?_, ?_, ?_⟩
  · intro p hp hpu
    have hok := branchPages_fetch_ok env rs p hp
    rw [hpu, hfail] at hok
    exact absurd hok (by simp)
  · intro r hr md hmd
    refine List.mem_filterMap.mpr ⟨r, hr, ?_⟩
    rw [hmd]
  · intro pr hpr
    unfold branchTry
    rw [hsearch]
    dsimp only
    rw [hpr]

/-- An environment whose search yields two URLs, of which the second fails
to fetch, while summarization succeeds over the fetched pages. -/
def envOneFetchFails : ResearchEnv :=
  ⟨fun _ _ _ => .ok [⟨"a", "ga"⟩],
   fun _ => .ok [⟨"u1", "t1", "d1"⟩, ⟨"u2", "t2", "d2"⟩],
   fun u => if u == "u2" then .error "fetchfail" else .ok ("md-" ++ u),
   fun _ pages _ => .ok ⟨pages.map (fun p => "learn-" ++ p.url), []⟩⟩

/-- C9 witness: with the second URL's fetch failing, the branch still
summarizes the surviving page and returns it, without the failed URL. -/
theorem branch_fetch_failure_isolated_witness :
    branchTry envOneFetchFails 4 ⟨"a", "ga"⟩ =
      .ok (["u1"], ⟨["learn-u1"], []⟩) ∧
    (⟨"u1", "md-u1"⟩ : JinaPage) ∈
      branchPages envOneFetchFails [⟨"u1", "t1", "d1"⟩, ⟨"u2", "t2", "d2"⟩] :=
  have h := branch_fetch_failure_isolated envOneFetchFails 4 ⟨"a", "ga"⟩
    [⟨"u1", "t1", "d1"⟩, ⟨"u2", "t2", "d2"⟩] ⟨"u2", "t2", "d2"⟩ "fetchfail"
    rfl (by decide) rfl
  ⟨h.2.2.2 ⟨["learn-u1"], []⟩ rfl,
   h.2.2.1 ⟨"u1", "t1", "d1"⟩ (by decide) "md-u1" rfl⟩

end DeepReport
